import Mathlib

/-!
Verification of the orchestration layer of `scikits.bvp1lg.colnew`
(`src/scikits/bvp1lg/colnew.py`) against its natural-language specification.

The Python module is shallowly embedded below.  Machine floats appearing in
the claims are only ever compared, copied and sorted, so they are modelled
by rationals; Python ints are modelled by `Int`; numpy arrays by lists;
raised exceptions by `Except`.  The opaque Fortran kernel is a parameter of
the embedding (a function from the marshalled call to a status flag and the
two mutated workspace buffers).
-/

namespace Bvp1lg

/-- Exception taxonomy of the module.  `valueError` is Python's `ValueError`
(with its message), `typeError` Python's `TypeError`; the remaining three
constructors are the exception classes of `scikits.bvp1lg.error` raised in
`_colnew_solve`, and `runtimeError` is Python's `RuntimeError`. -/
inductive Err where
  | valueError (msg : String)
  | typeError
  | singularCollocationMatrix
  | tooManySubintervals
  | noConvergence
  | runtimeError
  deriving DecidableEq, Repr

/-- Equality of `Except` results is decidable componentwise. -/
instance {e a : Type} [DecidableEq e] [DecidableEq a] :
    DecidableEq (Except e a)
  | .error x, .error y =>
    if h : x = y then .isTrue (congrArg Except.error h)
    else .isFalse (fun hc => h (Except.error.inj hc))
  | .error _, .ok _ => .isFalse (fun hc => Except.noConfusion hc)
  | .ok _, .error _ => .isFalse (fun hc => Except.noConfusion hc)
  | .ok x, .ok y =>
    if h : x = y then .isTrue (congrArg Except.ok h)
    else .isFalse (fun hc => h (Except.ok.inj hc))

/-- Python slicing `l[:n]` for an `int` bound `n` (a negative bound counts
from the end of the list). -/
def pyTake {α : Type} (l : List α) (n : Int) : List α :=
  if 0 ≤ n then l.take n.toNat else l.take (l.length - n.natAbs)

/-- Numpy slice assignment `dst[start:start+len(src)] = src`.  Numpy raises a
broadcast `ValueError` when the target slice is shorter than `src`. -/
def pySetSlice {α : Type} (dst : List α) (start : Nat) (src : List α) :
    Except Err (List α) :=
  if start + src.length ≤ dst.length then
    .ok (dst.take start ++ src ++ dst.drop (start + src.length))
  else
    .error (.valueError "could not broadcast input array")

/-- `Solution`: the result object (`colnew.py` lines 87-99), holding the
scalars and buffer prefixes copied out of the COLNEW workspace. -/
structure Solution where
  ncomp : Int
  mstar : Int
  nmesh : Int
  ispace : List Int
  fspace : List ℚ
  deriving DecidableEq, Repr

/-- `Solution.__init__(self, ispace, fspace)` (lines 91-99): reads `ncomp`
from `ispace[2]`, `mstar` from `ispace[3]`, sets `nmesh = ispace[0] + 1`, and
copies `ispace[:7+ncomp]` and `fspace[:ispace[6]]`. -/
def Solution.init (ispace : List Int) (fspace : List ℚ) : Solution :=
  let ncomp := ispace.getD 2 0
  let mstar := ispace.getD 3 0
  { ncomp := ncomp
    mstar := mstar
    nmesh := ispace.getD 0 0 + 1
    ispace := pyTake ispace (7 + ncomp)
    fspace := pyTake fspace (ispace.getD 6 0) }

/-- `Solution.get_mesh` (lines 120-127): returns `self.fspace[0:self.nmesh]`. -/
def Solution.get_mesh (s : Solution) : List ℚ :=
  pyTake s.fspace s.nmesh

/-! ### Reentrancy manager (`_colnew_enter` / `_colnew_exit`, lines 637-679)

The kernel's Fortran COMMON blocks are modelled as a list of named blocks,
each holding a list of (named) numeric arrays. -/

/-- One COMMON block: the variables of `com.__dict__`, by name. -/
abbrev CommonBlock := List (String × List ℚ)

/-- The nine COMMON blocks of `_colnew_commons` (line 639). -/
abbrev Commons := List CommonBlock

/-- The module-level reentrancy state: `_colnew_depth`, `_colnew_stack` and
the current contents of the kernel's COMMON blocks. -/
structure ColnewState where
  depth : Int
  stack : List Commons
  commons : Commons
  deriving DecidableEq, Repr

/-- `_colnew_enter` (lines 643-664): increment the depth; at depth 1 do
nothing more, otherwise push a deep copy of every COMMON block onto the
stack.  (Python appends to the list's end and pops from the end; the stack
is modelled with its top at the head.) -/
def colnew_enter (s : ColnewState) : ColnewState :=
  let d := s.depth + 1
  if d = 1 then { s with depth := d }
  else { depth := d, stack := s.commons :: s.stack, commons := s.commons }

/-- `_colnew_exit` (lines 666-679): decrement the depth; at depth 0 do
nothing more, otherwise pop the stack and write every saved block's contents
back into the COMMON blocks.  The empty-stack branch cannot arise under
paired bracketing (Python would raise `IndexError` from `list.pop`). -/
def colnew_exit (s : ColnewState) : ColnewState :=
  let d := s.depth - 1
  if d = 0 then { s with depth := d }
  else
    match s.stack with
    | [] => { s with depth := d }
    | entry :: rest => { depth := d, stack := rest, commons := entry }

/-- The `try: _colnew_enter(); ... finally: _colnew_exit()` bracket of
`solve` (lines 323-343).  The body receives the COMMON blocks, may mutate
them, and either returns a value or raises; `colnew_exit` runs on both
paths. -/
def colnew_bracket {α : Type} (body : Commons → Except Err α × Commons)
    (s : ColnewState) : Except Err α × ColnewState :=
  let s1 := colnew_enter s
  let r := body s1.commons
  (r.1, colnew_exit { s1 with commons := r.2 })

/-! ### The inputs of `_colnew_solve` (real-valued path, `is_complex = False`)

`vectorized` only selects between a user callback and a looping wrapper for
it; since callback behaviour is opaque to the claims it is not modelled. -/

/-- The `initial_guess` argument: `None`, a callable, a previous `Solution`,
or any other object (rejected at line 520). -/
inductive InitialGuess where
  | noGuess
  | callable
  | solution (s : Solution)
  | invalid
  deriving DecidableEq, Repr

/-- The `initial_mesh` argument: `None`, a number (only a point count,
line 525), or an array of concrete mesh points. -/
inductive InitialMesh where
  | noMesh
  | count (n : Int)
  | points (xs : List ℚ)
  deriving DecidableEq, Repr

/-- The keyword arguments of `solve` relevant to marshaling. -/
structure Inputs where
  boundary_points : List ℚ
  degrees : List Int
  left : Option ℚ
  right : Option ℚ
  is_linear : Bool
  initial_guess : InitialGuess
  coarsen_initial_guess_mesh : Bool
  initial_mesh : InitialMesh
  tolerances : Option (List ℚ)
  adaptive_mesh_selection : Bool
  verbosity : Int
  collocation_points : Option Int
  extra_fixed_points : Option (List ℚ)
  problem_regularity : Int
  maximum_mesh_size : Int
  deriving Repr

/-- Everything `_colnew_solve` hands to `_colnew.colnew` (lines 600-606),
except the callbacks. -/
structure KernelCall where
  degrees : List Int
  left : ℚ
  right : ℚ
  zeta : List ℚ
  ipar : List Int
  ltol : List Int
  tol : List ℚ
  fixpnt : List ℚ
  ispace : List Int
  fspace : List ℚ
  deriving DecidableEq, Repr

/-! ### Marshaling stages of `_colnew_solve` -/

/-- Degree validation (lines 378-393). -/
def checkDegrees (degrees : List Int) : Except Err Unit :=
  if degrees.any (fun x => decide (x ≤ 0) || decide (4 < x)) then
    .error (.valueError "Invalid value for degrees")
  else if degrees.length = 0 ∨ degrees.sum ≤ 0 then
    .error (.valueError "Invalid value for degrees: no equations")
  else if 256 < degrees.length then
    .error (.valueError "Too many equations")
  else if 512 < degrees.sum then
    .error (.valueError "Too many unknown variables")
  else .ok ()

/-- The `collocation_points` default and bound check (lines 397-400).
Python's `max(degrees)` is modelled by `foldl max 0`; the two agree because
this stage runs after `checkDegrees`, so `degrees` is nonempty with entries
in `[1,4]`. -/
def resolveCollocation (degrees : List Int) (cp : Option Int) :
    Except Err Int :=
  match cp with
  | none => .ok 0
  | some k =>
      if k < degrees.foldl max 0 ∨ 7 < k then
        .error (.valueError "Invalid number of collocation points")
      else .ok k

/-- Python `min` over a list (raises on an empty sequence). -/
def pyMin (l : List ℚ) : Except Err ℚ :=
  match l with
  | [] => .error (.valueError "min arg is an empty sequence")
  | x :: xs => .ok (xs.foldl min x)

/-- Python `max` over a list (raises on an empty sequence). -/
def pyMax (l : List ℚ) : Except Err ℚ :=
  match l with
  | [] => .error (.valueError "max arg is an empty sequence")
  | x :: xs => .ok (xs.foldl max x)

/-- The `left` default `min(boundary_points)` (lines 408-409). -/
def resolveLeft (inp : Inputs) : Except Err ℚ :=
  match inp.left with
  | some l => .ok l
  | none => pyMin inp.boundary_points

/-- The `right` default `max(boundary_points)` (lines 411-412). -/
def resolveRight (inp : Inputs) : Except Err ℚ :=
  match inp.right with
  | some r => .ok r
  | none => pyMax inp.boundary_points

/-- The workspace size computation (lines 414-424): returns
`(nispace, nfspace)`. -/
def workspaceSizes (ncomp mstar k M : Int) : Int × Int :=
  let kd := k * ncomp
  let kdm := kd + mstar
  let nsizei := 3 + kdm
  let nispace := M * nsizei
  let nrec : Int := 0
  let nsizef := 4 + 3 * mstar + (5 + kd) * kdm + (2 * mstar - nrec) * 2 * mstar
  let nfspace := M * nsizef
  (nispace, nfspace)

/-- Ascending sort, as numpy's `ndarray.sort` on the claims' data
(insertion sort: a stable comparison sort, like numpy's stable method). -/
def sortQ (l : List ℚ) : List ℚ :=
  l.insertionSort (· ≤ ·)

/-- Boundary-point validation (lines 431-443): length must equal `mstar`,
the points must already be in ascending order, and all must lie in
`[left, right]`; the sorted array `zeta` is what reaches the kernel. -/
def checkBoundaryPoints (mstar : Int) (left right : ℚ) (bps : List ℚ) :
    Except Err (List ℚ) :=
  if (bps.length : Int) ≠ mstar then
    .error (.valueError "Invalid number of boundary points")
  else
    let zeta := sortQ bps
    if zeta ≠ bps then
      .error (.valueError "Invalid ordering of boundary points")
    else if ¬ zeta.all (fun z => decide (left ≤ z) && decide (z ≤ right)) then
      .error (.valueError "Some boundary points outside range")
    else .ok zeta

/-- Fixed mesh points (lines 445-450): sort boundary plus extra points, keep
the strictly interior ones, then `np.unique` (sorted deduplication). -/
def computeFixpnt (bps extra : List ℚ) (left right : ℚ) : List ℚ :=
  let f1 := sortQ (bps ++ extra)
  let f2 := f1.filter (fun x => decide (left < x) && decide (x < right))
  (sortQ f2).dedup

/-- Verbosity clamping (lines 452-457). -/
def clampVerbosity (v : Int) : Int :=
  if v < 0 then 0 else if 2 < v then 2 else v

/-- Tolerance filtering (lines 464-467): keep the strictly positive entries
(`np.where(tolerances > 0)`) and their 1-based indices.  Returns
`(tol, ltol)`. -/
def activeTolerances (tolerances : List ℚ) : List ℚ × List Int :=
  let pairs := tolerances.enum.filter (fun p => decide ((0 : ℚ) < p.2))
  (pairs.map (fun p => p.2), pairs.map (fun p => (p.1 : Int) + 1))

/-- The tolerance filter as claim C6 words it: retain the entries whose
value is not 0 (so negative entries would be retained too). -/
def activeTolerancesClaim (tolerances : List ℚ) : List ℚ × List Int :=
  let pairs := tolerances.enum.filter (fun p => decide (p.2 ≠ (0 : ℚ)))
  (pairs.map (fun p => p.2), pairs.map (fun p => (p.1 : Int) + 1))

/-- The initial 11-entry `ipar` array (lines 471-483). -/
def buildIpar (isLinear : Bool) (k nltol nfspace nispace verbosity
    problemRegularity nfixpnt : Int) : List Int :=
  [1 - (if isLinear then 1 else 0),
   k, 10, nltol, nfspace, nispace, 1 - verbosity, 0, 0,
   problemRegularity, nfixpnt]

/-- The `initial_guess` dispatch (lines 488-520), updating the workspaces
and `ipar[2]`, `ipar[8]`.  With a `Solution` guess and a numeric
`initial_mesh`, Python reaches `len(initial_mesh)` on an `int` and raises
`TypeError` (unless the coarsening conflict is hit first). -/
def resolveGuess (guess : InitialGuess) (mesh : InitialMesh) (coarsen : Bool)
    (ispace : List Int) (fspace : List ℚ) (ipar : List Int) :
    Except Err (List Int × List ℚ × List Int) :=
  match guess with
  | .solution s =>
    match mesh with
    | .noMesh =>
      match pySetSlice ispace 0 s.ispace with
      | .error e => .error e
      | .ok ispace1 =>
        match pySetSlice fspace 0 s.fspace with
        | .error e => .error e
        | .ok fspace1 =>
          let ipar1 := ipar.set 2 (ispace1.getD 0 0)
          .ok (ispace1, fspace1, ipar1.set 8 (if coarsen then 3 else 2))
    | .count _ =>
      if coarsen then
        .error (.valueError "Initial mesh and guess both specified: cannot coarsen")
      else .error .typeError
    | .points xs =>
      if coarsen then
        .error (.valueError "Initial mesh and guess both specified: cannot coarsen")
      else
        let n := xs.length
        match pySetSlice ispace n s.ispace with
        | .error e => .error e
        | .ok ispace1 =>
          match pySetSlice fspace n s.fspace with
          | .error e => .error e
          | .ok fspace1 =>
            .ok (ispace1, fspace1, (ipar.set 8 4).set 2 ((n : Int) - 1))
  | .callable => .ok (ispace, fspace, ipar.set 8 1)
  | .noGuess => .ok (ispace, fspace, ipar.set 8 0)
  | .invalid => .error (.valueError "Unknown initial_guess")

/-- The `initial_mesh` dispatch (lines 522-542).  A numeric mesh sets the
point count and is then treated as absent; an absent mesh is a `ValueError`
when adaptive mesh selection is disabled; concrete points are written into
`fspace` and select `ipar[7] = 2` (fixed mesh) or `1`. -/
def resolveMesh (mesh : InitialMesh) (adaptive : Bool)
    (fspace : List ℚ) (ipar : List Int) :
    Except Err (List ℚ × List Int) :=
  match mesh with
  | .count n =>
    let ipar1 := (ipar.set 2 n).set 7 0
    if adaptive then .ok (fspace, ipar1.set 7 0)
    else .error (.valueError "Cannot disable mesh selection when no initial_mesh given")
  | .points xs =>
    match pySetSlice fspace 0 xs with
    | .error e => .error e
    | .ok fspace1 =>
      let ipar1 := ipar.set 2 ((xs.length : Int) - 1)
      .ok (fspace1, ipar1.set 7 (if adaptive then 1 else 2))
  | .noMesh =>
    let ipar1 := ipar.set 7 0
    if adaptive then .ok (fspace, ipar1)
    else .error (.valueError "Cannot disable mesh selection when no initial_mesh given")

/-- Everything `_colnew_solve` does before invoking the kernel
(lines 378-606), in source order, producing the assembled kernel call. -/
def colnewMarshal (inp : Inputs) : Except Err KernelCall :=
  match checkDegrees inp.degrees with
  | .error e => .error e
  | .ok _ =>
    let ncomp : Int := inp.degrees.length
    let mstar : Int := inp.degrees.sum
    match resolveCollocation inp.degrees inp.collocation_points with
    | .error e => .error e
    | .ok k =>
      let extra := inp.extra_fixed_points.getD []
      let tolerances := inp.tolerances.getD (List.replicate mstar.toNat (0 : ℚ))
      match resolveLeft inp with
      | .error e => .error e
      | .ok left =>
        match resolveRight inp with
        | .error e => .error e
        | .ok right =>
          let sizes := workspaceSizes ncomp mstar k inp.maximum_mesh_size
          if sizes.1 < 0 ∨ sizes.2 < 0 then
            .error (.valueError "negative dimensions are not allowed")
          else
            let ispace : List Int := List.replicate sizes.1.toNat 0
            let fspace : List ℚ := List.replicate sizes.2.toNat 0
            match checkBoundaryPoints mstar left right inp.boundary_points with
            | .error e => .error e
            | .ok zeta =>
              let fixpnt := computeFixpnt inp.boundary_points extra left right
              let verbosity := clampVerbosity inp.verbosity
              if (tolerances.length : Int) ≠ mstar then
                .error (.valueError "Invalid number of tolerances")
              else
                let tl := activeTolerances tolerances
                let ipar := buildIpar inp.is_linear k tl.2.length
                  sizes.2 sizes.1 verbosity inp.problem_regularity
                  fixpnt.length
                let fixpnt1 := if fixpnt = [] then [(0 : ℚ)] else fixpnt
                match resolveGuess inp.initial_guess inp.initial_mesh
                    inp.coarsen_initial_guess_mesh ispace fspace ipar with
                | .error e => .error e
                | .ok g =>
                  match resolveMesh inp.initial_mesh
                      inp.adaptive_mesh_selection g.2.1 g.2.2 with
                  | .error e => .error e
                  | .ok m =>
                    .ok { degrees := inp.degrees, left := left,
                          right := right, zeta := zeta, ipar := m.2,
                          ltol := tl.2, tol := tl.1, fixpnt := fixpnt1,
                          ispace := g.1, fspace := m.1 }

/-! ### Status-code interpretation (lines 608-624) -/

/-- The `iflag` dispatch after the kernel call (lines 610-624). -/
def checkIflag (iflag : Int) : Except Err Unit :=
  if iflag = 1 then .ok ()
  else if iflag = 0 then .error .singularCollocationMatrix
  else if iflag = -1 then .error .tooManySubintervals
  else if iflag = -2 then .error .noConvergence
  else if iflag = -3 then .error (.valueError "Invalid input data for COLNEW")
  else .error .runtimeError

/-- A run of the opaque kernel `_colnew.colnew`: a status flag plus the
mutated integer and float workspaces. -/
structure KernelRun where
  iflag : Int
  ispace : List Int
  fspace : List ℚ

/-- `_colnew_solve` (lines 345-634, real-valued path): marshal, invoke the
kernel, interpret the status code, and build the `Solution` from the
workspaces the kernel filled. -/
def colnew_solve (kern : KernelCall → KernelRun) (inp : Inputs) :
    Except Err Solution :=
  match colnewMarshal inp with
  | .error e => .error e
  | .ok c =>
    match checkIflag (kern c).iflag with
    | .error e => .error e
    | .ok _ => .ok (Solution.init (kern c).ispace (kern c).fspace)

/-- `solve` (lines 323-343): `_colnew_solve` bracketed by
`_colnew_enter`/`_colnew_exit` through `try`/`finally`; `kernMut` is the
kernel's effect on the COMMON blocks. -/
def solve (kern : KernelCall → KernelRun) (kernMut : Commons → Commons)
    (inp : Inputs) (s : ColnewState) : Except Err Solution × ColnewState :=
  colnew_bracket (fun c => (colnew_solve kern inp, kernMut c)) s

/-! ### Jacobian checking (`check_jacobians`, lines 681-757)

Vectors are `List ℚ` and matrices row-major `List (List ℚ)`.  The module
`scikits.bvp1lg.jacobian` is not part of the sources, so its two entry
points are modelled from the specification. -/

/-- A vector with entry `j` incremented by the difference step (taken as 1;
exact for the linear functions the claims evaluate). -/
def bump (x : List ℚ) (j : Nat) : List ℚ :=
  x.mapIdx (fun t v => if t = j then v + 1 else v)

/-- Modelled from the spec: `jacobian.jacobian(f, x0)` (the module
`jacobian` is missing from the sources) — the finite-difference Jacobian of
a vector function at a point, a forward-difference scheme with a default
step. -/
def fd_jacobian (n : Nat) (f : List ℚ → List ℚ) (x0 : List ℚ) :
    List (List ℚ) :=
  let f0 := f x0
  (List.range f0.length).map (fun i =>
    (List.range n).map (fun j => (f (bump x0 j)).getD i 0 - f0.getD i 0))

/-- Modelled from the spec: `jacobian.check_jacobian(n, f, df)` (the module
`jacobian` is missing from the sources) — compare the user Jacobian with a
finite-difference Jacobian of `f` at a sample point, here the origin. -/
def check_jacobian (n : Nat) (f : List ℚ → List ℚ)
    (df : List ℚ → List (List ℚ)) : Bool :=
  decide (fd_jacobian n f (List.replicate n 0) = df (List.replicate n 0))

/-- The distinct boundary locations `indep = np.unique(boundary_points)`
(line 734): sorted deduplication. -/
def distinctLocations (bps : List ℚ) : List ℚ :=
  (sortQ bps).dedup

/-- `indep_map` (line 735): for each condition, the index of its own
location among the distinct locations. -/
def indepMap (bps : List ℚ) : List Nat :=
  bps.map (fun p => (distinctLocations bps).indexOf p)

/-- The boundary-condition part of `check_jacobians` (lines 726-757).
`_get_u` expands one z-vector copy per distinct location into the
`mstar × mstar` argument of `gsub`/`dgsub`; `_dgsub` places condition `i`'s
row of the user Jacobian in the columns of its own distinct location only;
the expanded pair is then handed to the finite-difference check.  (The
right-hand-side check of lines 707-724 samples random points and is not
modelled.) -/
def check_jacobians_boundary (bps : List ℚ) (degrees : List Int)
    (gsub : List (List ℚ) → List ℚ)
    (dgsub : List (List ℚ) → List (List ℚ)) : Except Err Unit :=
  let mstar := degrees.sum.toNat
  let indep := distinctLocations bps
  let imap := indepMap bps
  let nindep := indep.length
  let getU (z : List ℚ) : List (List ℚ) :=
    (List.range mstar).map (fun r =>
      (List.range mstar).map (fun i => z.getD (r * nindep + imap.getD i 0) 0))
  let g1 := fun z => gsub (getU z)
  let dg1 := fun z =>
    let dg := dgsub (getU z)
    (List.range mstar).map (fun i =>
      ((List.range mstar).map (fun j =>
        (List.range nindep).map (fun l =>
          if l = imap.getD i 0 then (dg.getD i []).getD j 0 else 0))).flatten)
  if check_jacobian (mstar * nindep) g1 dg1 then .ok ()
  else .error (.valueError "dgsub may be invalid")

/-- Does the `initial_mesh` argument carry concrete point locations? -/
def InitialMesh.isPoints : InitialMesh → Bool
  | .points _ => true
  | _ => false

/-! ### Concrete instances used as evaluation witnesses -/

/-- A tiny prior `Solution`, as continuation input. -/
def exSol : Solution :=
  { ncomp := 1, mstar := 1, nmesh := 2, ispace := [1, 0, 1, 1, 0, 0, 3],
    fspace := [5, 6, 7] }

/-- A minimal valid problem: one first-order equation, one boundary point,
all optional arguments at their `solve` defaults except a small mesh-size
bound. -/
def exBase : Inputs :=
  { boundary_points := [0], degrees := [1], left := none, right := none,
    is_linear := false, initial_guess := .noGuess,
    coarsen_initial_guess_mesh := true, initial_mesh := .noMesh,
    tolerances := none, adaptive_mesh_selection := true, verbosity := 0,
    collocation_points := none, extra_fixed_points := none,
    problem_regularity := 0, maximum_mesh_size := 3 }

/-- `exBase` with a given verbosity. -/
def exV (v : Int) : Inputs := { exBase with verbosity := v }

/-- The kernel call `exV v` marshals to. -/
def cV (v : Int) : KernelCall :=
  { degrees := [1], left := 0, right := 0, zeta := [0],
    ipar := [1, 0, 10, 0, 48, 12, 1 - clampVerbosity v, 0, 0, 0, 0],
    ltol := [], tol := [], fixpnt := [0],
    ispace := List.replicate 12 0, fspace := List.replicate 48 0 }

/-- Continuation of `exSol` onto the explicit mesh `[0, 1]`. -/
def exC8 : Inputs :=
  { exBase with
    initial_guess := .solution exSol,
    coarsen_initial_guess_mesh := false,
    initial_mesh := .points [0, 1] }

/-- `exC8` with coarsening also requested (the rejected combination). -/
def exC8c : Inputs := { exC8 with coarsen_initial_guess_mesh := true }

/-- The kernel call `exC8` marshals to: the mesh occupies the head of the
float workspace and the prior solution's data sits right after it. -/
def c8Call : KernelCall :=
  { degrees := [1], left := 0, right := 0, zeta := [0],
    ipar := [1, 0, 1, 0, 48, 12, 1, 1, 4, 0, 0],
    ltol := [], tol := [], fixpnt := [0],
    ispace := [0, 0, 1, 0, 1, 1, 0, 0, 3, 0, 0, 0],
    fspace := [0, 1, 5, 6, 7] ++ List.replicate 43 0 }

/-- A non-adaptive run with an explicit concrete mesh. -/
def exC7ok : Inputs :=
  { exBase with
    initial_mesh := .points [0, 1],
    adaptive_mesh_selection := false }

/-- A non-adaptive run without any concrete mesh. -/
def exC7bad : Inputs := { exBase with adaptive_mesh_selection := false }

/-- The kernel call `exC7ok` marshals to (`ipar[7] = 2`: fixed mesh). -/
def c7Call : KernelCall :=
  { degrees := [1], left := 0, right := 0, zeta := [0],
    ipar := [1, 0, 1, 0, 48, 12, 1, 2, 0, 0, 0],
    ltol := [], tol := [], fixpnt := [0],
    ispace := List.replicate 12 0,
    fspace := [0, 1] ++ List.replicate 46 0 }

/-- A kernel stub returning a given status flag and leaving tiny workspaces. -/
def stubKernel (iflag : Int) : KernelCall → KernelRun :=
  fun _ => { iflag := iflag, ispace := [1, 0, 1, 1, 0, 0, 2], fspace := [0, 1] }

/-- A reentrancy state one level deep (an outer solve in progress). -/
def exState : ColnewState :=
  { depth := 1, stack := [], commons := [[("x", [1, 2])]] }

/-- A two-unknown problem with one active and one inactive tolerance. -/
def exC6 : Inputs :=
  { exBase with
    degrees := [2],
    boundary_points := [0, 0],
    tolerances := some [3, 0] }

/-- The kernel call `exC6` marshals to: one retained tolerance with 1-based
index 1, and `ipar[3] = 1`. -/
def cC6 : KernelCall :=
  { degrees := [2], left := 0, right := 0, zeta := [0, 0],
    ipar := [1, 0, 10, 1, 108, 15, 1, 0, 0, 0, 0],
    ltol := [1], tol := [3], fixpnt := [0],
    ispace := List.replicate 15 0, fspace := List.replicate 108 0 }

/-- Boundary-condition function for C9 in which each condition depends only
on the z-vector copy of its own location (conditions 0 and 1 share location
0, condition 2 has location 1). -/
def gsubGood (u : List (List ℚ)) : List ℚ :=
  [(u.getD 0 []).getD 0 0, (u.getD 1 []).getD 1 0, (u.getD 2 []).getD 2 0]

/-- The exact Jacobian of `gsubGood` in the kernel's own-location
convention. -/
def dgsubId (_u : List (List ℚ)) : List (List ℚ) :=
  [[1, 0, 0], [0, 1, 0], [0, 0, 1]]

/-- Boundary-condition function whose condition 2 (location 1) reads the
z-vector copy of condition 0 (the other distinct location, 0); `dgsubId`
reports that sensitivity, which the expanded check localizes to the wrong
columns. -/
def gsubBad (u : List (List ℚ)) : List ℚ :=
  [(u.getD 0 []).getD 0 0, (u.getD 1 []).getD 1 0, (u.getD 2 []).getD 0 0]

/-! ### Helper lemmas -/

theorem checkIflag_ok_imp {i : Int} {u : Unit} (h : checkIflag i = .ok u) :
    i = 1 := by
  by_contra hne
  unfold checkIflag at h
  rw [if_neg hne] at h
  by_cases h0 : i = 0
  · rw [if_pos h0] at h; exact Except.noConfusion h
  rw [if_neg h0] at h
  by_cases h1 : i = -1
  · rw [if_pos h1] at h; exact Except.noConfusion h
  rw [if_neg h1] at h
  by_cases h2 : i = -2
  · rw [if_pos h2] at h; exact Except.noConfusion h
  rw [if_neg h2] at h
  by_cases h3 : i = -3
  · rw [if_pos h3] at h; exact Except.noConfusion h
  rw [if_neg h3] at h
  exact Except.noConfusion h

theorem pySetSlice_ok {α : Type} {dst : List α} {start : Nat} {src : List α}
    {out : List α} (h : pySetSlice dst start src = .ok out) :
    start + src.length ≤ dst.length ∧
      out = dst.take start ++ src ++ dst.drop (start + src.length) := by
  unfold pySetSlice at h
  by_cases hb : start + src.length ≤ dst.length
  · rw [if_pos hb] at h
    exact ⟨hb, (Except.ok.injEq _ _ ▸ h).symm⟩
  · rw [if_neg hb] at h
    exact Except.noConfusion h

theorem pySetSlice_ok_length {α : Type} {dst : List α} {start : Nat}
    {src : List α} {out : List α} (h : pySetSlice dst start src = .ok out) :
    out.length = dst.length := by
  obtain ⟨hb, rfl⟩ := pySetSlice_ok h
  simp [List.length_take, List.length_drop]
  omega

theorem getD_set_ne {l : List Int} {i j : Nat} {v d : Int} (h : i ≠ j) :
    (l.set i v).getD j d = l.getD j d := by
  simp [List.getD_eq_getElem?_getD, List.getElem?_set_ne h]

theorem getD_set_self {l : List Int} {i : Nat} {v d : Int}
    (h : i < l.length) :
    (l.set i v).getD i d = v := by
  simp [List.getD_eq_getElem?_getD, List.getElem?_set_self h]

theorem sortQ_eq_self_iff (l : List ℚ) :
    sortQ l = l ↔ l.Sorted (· ≤ ·) := by
  constructor
  · intro h
    have hs := List.sorted_insertionSort (α := ℚ) (· ≤ ·) l
    rw [sortQ] at h
    rw [h] at hs
    exact hs
  · intro h
    exact List.Sorted.insertionSort_eq h

theorem checkBoundaryPoints_ok {mstar : Int} {left right : ℚ}
    {bps zeta : List ℚ}
    (h : checkBoundaryPoints mstar left right bps = .ok zeta) :
    zeta = bps ∧ (bps.length : Int) = mstar ∧ bps.Sorted (· ≤ ·) ∧
      ∀ p ∈ bps, left ≤ p ∧ p ≤ right := by
  unfold checkBoundaryPoints at h
  by_cases hlen : (bps.length : Int) ≠ mstar
  · rw [if_pos hlen] at h; exact Except.noConfusion h
  rw [if_neg hlen] at h
  simp only at h
  by_cases hsort : sortQ bps ≠ bps
  · rw [if_pos hsort] at h; exact Except.noConfusion h
  rw [if_neg hsort] at h
  push_neg at hsort
  by_cases hall : ¬ (sortQ bps).all
      (fun z => decide (left ≤ z) && decide (z ≤ right))
  · rw [if_pos hall] at h; exact Except.noConfusion h
  rw [if_neg hall] at h
  push_neg at hlen hall
  injection h with h
  subst h
  refine ⟨hsort, hlen, (sortQ_eq_self_iff bps).mp hsort, ?_⟩
  intro p hp
  rw [hsort] at hall
  have := List.all_eq_true.mp hall p hp
  simpa using this

theorem resolveCollocation_ok {degrees : List Int} {cp : Option Int} {k : Int}
    (h : resolveCollocation degrees cp = .ok k) :
    k = cp.getD 0 := by
  cases cp with
  | none =>
    simp only [resolveCollocation] at h
    injection h with h; exact h.symm
  | some k0 =>
    simp only [resolveCollocation] at h
    by_cases hb : k0 < degrees.foldl max 0 ∨ 7 < k0
    · rw [if_pos hb] at h; exact Except.noConfusion h
    · rw [if_neg hb] at h; injection h with h; exact h.symm

theorem clampVerbosity_eq (v : Int) :
    clampVerbosity v = max 0 (min 2 v) := by
  unfold clampVerbosity
  split
  · omega
  · split
    all_goals omega

theorem enumFrom_filter_map_snd (P : ℚ → Bool) :
    ∀ (ts : List ℚ) (n : Nat),
      ((ts.enumFrom n).filter (fun p => P p.2)).map (fun p => p.2)
        = ts.filter P
  | [], _ => rfl
  | a :: t, n => by
    rw [List.enumFrom_cons]
    by_cases hP : P a
    · rw [List.filter_cons_of_pos (by simpa using hP),
        List.filter_cons_of_pos hP, List.map_cons,
        enumFrom_filter_map_snd P t (n + 1)]
    · rw [List.filter_cons_of_neg (by simpa using hP),
        List.filter_cons_of_neg hP,
        enumFrom_filter_map_snd P t (n + 1)]

theorem mem_enumFrom_facts :
    ∀ (ts : List ℚ) (n : Nat) (p : Nat × ℚ), p ∈ ts.enumFrom n →
      n ≤ p.1 ∧ p.1 - n < ts.length ∧ ts.getD (p.1 - n) 0 = p.2
  | [], _, _, hp => absurd hp (List.not_mem_nil _)
  | a :: t, n, p, hp => by
    rw [List.enumFrom_cons] at hp
    rcases List.mem_cons.mp hp with h | h
    · subst h
      simp
    · obtain ⟨h1, h2, h3⟩ := mem_enumFrom_facts t (n + 1) p h
      refine ⟨by omega, by simp; omega, ?_⟩
      have hd : p.1 - n = (p.1 - (n + 1)) + 1 := by omega
      rw [hd]
      simpa using h3

theorem pairwise_fst_enumFrom :
    ∀ (ts : List ℚ) (n : Nat),
      (ts.enumFrom n).Pairwise (fun p q => p.1 < q.1)
  | [], _ => List.Pairwise.nil
  | a :: t, n => by
    rw [List.enumFrom_cons]
    refine List.Pairwise.cons ?_ (pairwise_fst_enumFrom t (n + 1))
    intro q hq
    have := (mem_enumFrom_facts t (n + 1) q hq).1
    simpa using by omega

theorem resolveGuess_ok {guess : InitialGuess} {mesh : InitialMesh}
    {coarsen : Bool} {ispace : List Int} {fspace : List ℚ} {ipar : List Int}
    {g : List Int × List ℚ × List Int}
    (h : resolveGuess guess mesh coarsen ispace fspace ipar = .ok g) :
    g.1.length = ispace.length ∧ g.2.1.length = fspace.length ∧
      g.2.2.length = ipar.length ∧
      ∀ j, j ≠ 2 → j ≠ 8 → g.2.2.getD j 0 = ipar.getD j 0 := by
  cases guess with
  | solution s =>
    cases mesh with
    | noMesh =>
      simp only [resolveGuess] at h
      split at h
      · exact Except.noConfusion h
      rename_i isp1 hisp
      split at h
      · exact Except.noConfusion h
      rename_i fsp1 hfsp
      injection h with h
      subst h
      refine ⟨pySetSlice_ok_length hisp, pySetSlice_ok_length hfsp, by simp, ?_⟩
      intro j hj2 hj8
      rw [getD_set_ne (by omega), getD_set_ne (by omega)]
    | count n =>
      simp only [resolveGuess] at h
      split at h
      · exact Except.noConfusion h
      · exact Except.noConfusion h
    | points xs =>
      simp only [resolveGuess] at h
      split at h
      · exact Except.noConfusion h
      split at h
      · exact Except.noConfusion h
      rename_i isp1 hisp
      split at h
      · exact Except.noConfusion h
      rename_i fsp1 hfsp
      injection h with h
      subst h
      refine ⟨pySetSlice_ok_length hisp, pySetSlice_ok_length hfsp, by simp, ?_⟩
      intro j hj2 hj8
      rw [getD_set_ne (by omega), getD_set_ne (by omega)]
  | callable =>
    simp only [resolveGuess] at h
    injection h with h
    subst h
    exact ⟨rfl, rfl, by simp, fun j hj2 hj8 => getD_set_ne (by omega)⟩
  | noGuess =>
    simp only [resolveGuess] at h
    injection h with h
    subst h
    exact ⟨rfl, rfl, by simp, fun j hj2 hj8 => getD_set_ne (by omega)⟩
  | invalid => exact Except.noConfusion h

theorem resolveMesh_ok {mesh : InitialMesh} {adaptive : Bool}
    {fspace : List ℚ} {ipar : List Int} {m : List ℚ × List Int}
    (h : resolveMesh mesh adaptive fspace ipar = .ok m) :
    m.1.length = fspace.length ∧ m.2.length = ipar.length ∧
      ∀ j, j ≠ 2 → j ≠ 7 → m.2.getD j 0 = ipar.getD j 0 := by
  cases mesh with
  | count n =>
    simp only [resolveMesh] at h
    split at h
    · injection h with h
      subst h
      refine ⟨rfl, by simp, ?_⟩
      intro j hj2 hj7
      rw [getD_set_ne (by omega), getD_set_ne (by omega),
        getD_set_ne (by omega)]
    · exact Except.noConfusion h
  | points xs =>
    simp only [resolveMesh] at h
    split at h
    · exact Except.noConfusion h
    rename_i fsp1 hfsp
    injection h with h
    subst h
    refine ⟨pySetSlice_ok_length hfsp, by simp, ?_⟩
    intro j hj2 hj7
    rw [getD_set_ne (by omega), getD_set_ne (by omega)]
  | noMesh =>
    simp only [resolveMesh] at h
    split at h
    · injection h with h
      subst h
      refine ⟨rfl, by simp, ?_⟩
      intro j hj2 hj7
      rw [getD_set_ne (by omega)]
    · exact Except.noConfusion h

theorem colnewMarshal_ok {inp : Inputs} {c : KernelCall}
    (h : colnewMarshal inp = .ok c) :
    ∃ (k : Int) (left right : ℚ) (g : List Int × List ℚ × List Int)
      (m : List ℚ × List Int),
      checkDegrees inp.degrees = .ok () ∧
      resolveCollocation inp.degrees inp.collocation_points = .ok k ∧
      resolveLeft inp = .ok left ∧
      resolveRight inp = .ok right ∧
      0 ≤ (workspaceSizes inp.degrees.length inp.degrees.sum k
            inp.maximum_mesh_size).1 ∧
      0 ≤ (workspaceSizes inp.degrees.length inp.degrees.sum k
            inp.maximum_mesh_size).2 ∧
      checkBoundaryPoints inp.degrees.sum left right inp.boundary_points
        = .ok c.zeta ∧
      ((inp.tolerances.getD
          (List.replicate inp.degrees.sum.toNat 0)).length : Int)
        = inp.degrees.sum ∧
      resolveGuess inp.initial_guess inp.initial_mesh
        inp.coarsen_initial_guess_mesh
        (List.replicate (workspaceSizes inp.degrees.length inp.degrees.sum k
            inp.maximum_mesh_size).1.toNat 0)
        (List.replicate (workspaceSizes inp.degrees.length inp.degrees.sum k
            inp.maximum_mesh_size).2.toNat 0)
        (buildIpar inp.is_linear k
          (activeTolerances (inp.tolerances.getD
            (List.replicate inp.degrees.sum.toNat 0))).2.length
          (workspaceSizes inp.degrees.length inp.degrees.sum k
            inp.maximum_mesh_size).2
          (workspaceSizes inp.degrees.length inp.degrees.sum k
            inp.maximum_mesh_size).1
          (clampVerbosity inp.verbosity) inp.problem_regularity
          (computeFixpnt inp.boundary_points
            (inp.extra_fixed_points.getD []) left right).length) = .ok g ∧
      resolveMesh inp.initial_mesh inp.adaptive_mesh_selection g.2.1 g.2.2
        = .ok m ∧
      c.degrees = inp.degrees ∧ c.left = left ∧ c.right = right ∧
      c.ipar = m.2 ∧
      c.ltol = (activeTolerances (inp.tolerances.getD
        (List.replicate inp.degrees.sum.toNat 0))).2 ∧
      c.tol = (activeTolerances (inp.tolerances.getD
        (List.replicate inp.degrees.sum.toNat 0))).1 ∧
      c.ispace = g.1 ∧ c.fspace = m.1 := by
  simp only [colnewMarshal] at h
  split at h
  · exact Except.noConfusion h
  rename_i u hdeg
  split at h
  · exact Except.noConfusion h
  rename_i k hcol
  split at h
  · exact Except.noConfusion h
  rename_i left hleft
  split at h
  · exact Except.noConfusion h
  rename_i right hright
  split at h
  · exact Except.noConfusion h
  rename_i hsz
  split at h
  · exact Except.noConfusion h
  rename_i zeta hbp
  split at h
  · exact Except.noConfusion h
  rename_i htol
  split at h
  · exact Except.noConfusion h
  rename_i g hg
  split at h
  · exact Except.noConfusion h
  rename_i m hm
  injection h with h
  subst h
  cases u
  refine ⟨k, left, right, g, m, hdeg, hcol, hleft, hright,
    by omega, by omega, hbp, by omega, hg, hm,
    rfl, rfl, rfl, rfl, rfl, rfl, rfl, rfl⟩

theorem colnew_bracket_restores {α : Type}
    (body : Commons → Except Err α × Commons) (s : ColnewState)
    (hd : 1 ≤ s.depth) :
    (colnew_bracket body s).2 = s := by
  obtain ⟨d, st, co⟩ := s
  simp only at hd
  unfold colnew_bracket colnew_enter
  rw [if_neg (show ¬ (d + 1 = 1) by omega)]
  unfold colnew_exit
  simp only
  rw [if_neg (show ¬ (d + 1 - 1 = 0) by omega)]
  simp only [ColnewState.mk.injEq, and_true]
  omega

/-! ### The claims -/

/-- C1: the kernel status code `1` yields a normal return of a `Solution`;
`0` raises `SingularCollocationMatrix`; `-1` raises `TooManySubintervals`;
`-2` raises `NoConvergence`; `-3` raises a `ValueError` for invalid kernel
input; any other value raises a generic `RuntimeError`.  A solve succeeds
only when the status was `1`, and any mapped error propagates out of
`_colnew_solve` — never silently swallowed. -/
theorem claim_C1 :
    checkIflag 1 = .ok () ∧
    checkIflag 0 = .error .singularCollocationMatrix ∧
    checkIflag (-1) = .error .tooManySubintervals ∧
    checkIflag (-2) = .error .noConvergence ∧
    checkIflag (-3) = .error (.valueError "Invalid input data for COLNEW") ∧
    (∀ i : Int, i ≠ 1 → i ≠ 0 → i ≠ -1 → i ≠ -2 → i ≠ -3 →
      checkIflag i = .error .runtimeError) ∧
    (∀ (kern : KernelCall → KernelRun) (inp : Inputs) (sol : Solution),
      colnew_solve kern inp = .ok sol →
      ∃ c, colnewMarshal inp = .ok c ∧ (kern c).iflag = 1) ∧
    (∀ (kern : KernelCall → KernelRun) (inp : Inputs) (c : KernelCall)
       (e : Err), colnewMarshal inp = .ok c →
      checkIflag (kern c).iflag = .error e →
      colnew_solve kern inp = .error e) := by
  refine ⟨rfl, rfl, rfl, rfl, rfl, ?_, ?_, ?_⟩
  · intro i h1 h0 hm1 hm2 hm3
    unfold checkIflag
    rw [if_neg h1, if_neg h0, if_neg hm1, if_neg hm2, if_neg hm3]
  · intro kern inp sol h
    unfold colnew_solve at h
    split at h
    · exact Except.noConfusion h
    rename_i c hM
    split at h
    · exact Except.noConfusion h
    rename_i u hF
    exact ⟨c, hM, checkIflag_ok_imp hF⟩
  · intro kern inp c e hM hF
    simp only [colnew_solve, hM, hF]

/-- C1 witness: evaluating the mapping at the unrecognized code 7, including
through a full solve against a stub kernel. -/
theorem claim_C1_witness :
    checkIflag 7 = .error .runtimeError ∧
    colnew_solve (stubKernel 7) exBase = .error .runtimeError := by
  constructor
  · exact claim_C1.2.2.2.2.2.1 7 (by decide) (by decide) (by decide)
      (by decide) (by decide)
  · exact claim_C1.2.2.2.2.2.2.2 (stubKernel 7) exBase (cV 0) .runtimeError
      (by decide) (by decide)

/-- C3: a nested `enter` (depth at least 1 beforehand) pushes a copy of the
COMMON blocks and the matching `exit` restores every block to its value at
entry, whatever the body did to them and whether the body returned or
raised; the outermost `enter` pushes nothing and the final `exit` restores
nothing (the body's mutation survives); and through `solve`'s
`try`/`finally`, the state is restored on every path. -/
theorem claim_C3 :
    (∀ (s : ColnewState) (f : Commons → Commons) (a : Solution) (e : Err),
      1 ≤ s.depth →
        (colnew_bracket (fun c => (Except.ok a, f c)) s).2 = s ∧
        (colnew_bracket (fun c =>
          ((Except.error e : Except Err Solution), f c)) s).2 = s) ∧
    (∀ s : ColnewState, s.depth = 0 →
      (colnew_enter s).stack = s.stack ∧
      ∀ (f : Commons → Commons) (a : Solution),
        ((colnew_bracket (fun c => (Except.ok a, f c)) s).2).commons
          = f s.commons) ∧
    (∀ (kern : KernelCall → KernelRun) (kernMut : Commons → Commons)
       (inp : Inputs) (s : ColnewState),
      1 ≤ s.depth → (solve kern kernMut inp s).2 = s) := by
  refine ⟨?_, ?_, ?_⟩
  · intro s f a e hd
    exact ⟨colnew_bracket_restores _ s hd, colnew_bracket_restores _ s hd⟩
  · intro s hd
    obtain ⟨d, st, co⟩ := s
    simp only at hd
    subst hd
    constructor
    · unfold colnew_enter
      rw [if_pos (by omega : (0 : Int) + 1 = 1)]
    · intro f a
      unfold colnew_bracket colnew_enter
      rw [if_pos (by omega : (0 : Int) + 1 = 1)]
      unfold colnew_exit
      simp
  · intro kern kernMut inp s hd
    exact colnew_bracket_restores _ s hd

/-- C3 witness: a depth-1 state is restored exactly through success and
failure bodies and through `solve`; at depth 0 nothing is pushed and the
body's mutation of the COMMON blocks survives the final `exit`. -/
theorem claim_C3_witness :
    ((colnew_bracket (fun c => (Except.ok exSol, [] :: c)) exState).2
      = exState) ∧
    ((colnew_bracket (fun c =>
        ((Except.error Err.runtimeError : Except Err Solution),
          [] :: c)) exState).2 = exState) ∧
    ((solve (stubKernel 1) (fun _ => []) exBase exState).2 = exState) ∧
    (colnew_enter { exState with depth := 0 }).stack = exState.stack ∧
    ((colnew_bracket (fun c => (Except.ok exSol, [] :: c))
        { exState with depth := 0 }).2).commons = [] :: exState.commons := by
  refine ⟨(claim_C3.1 exState (fun c => [] :: c) exSol Err.runtimeError
      (by decide)).1,
    (claim_C3.1 exState (fun c => [] :: c) exSol Err.runtimeError
      (by decide)).2,
    claim_C3.2.2 (stubKernel 1) (fun _ => []) exBase exState (by decide),
    (claim_C3.2.1 { exState with depth := 0 } rfl).1,
    (claim_C3.2.1 { exState with depth := 0 } rfl).2 (fun c => [] :: c) exSol⟩

/-- C4: the `Solution` built from a post-kernel workspace reads `ncomp` from
`ispace[2]` and `mstar` from `ispace[3]`, keeps exactly the first
`7 + ncomp` integer entries and the first `ispace[6]` float entries, has
`nmesh = ispace[0] + 1` mesh points, and its mesh view is exactly the first
`nmesh` entries of the copied float buffer; nothing else is retained. -/
theorem claim_C4 (isp : List Int) (fsp : List ℚ)
    (h2 : 0 ≤ isp.getD 2 0) (h0 : 0 ≤ isp.getD 0 0) (h6 : 0 ≤ isp.getD 6 0)
    (hlen : 7 + (isp.getD 2 0).toNat ≤ isp.length)
    (hf : (isp.getD 6 0).toNat ≤ fsp.length)
    (hmesh : (isp.getD 0 0).toNat + 1 ≤ (isp.getD 6 0).toNat) :
    (Solution.init isp fsp).ncomp = isp.getD 2 0 ∧
    (Solution.init isp fsp).mstar = isp.getD 3 0 ∧
    (Solution.init isp fsp).nmesh = isp.getD 0 0 + 1 ∧
    (Solution.init isp fsp).ispace = isp.take (7 + (isp.getD 2 0).toNat) ∧
    ((Solution.init isp fsp).ispace).length = 7 + (isp.getD 2 0).toNat ∧
    (Solution.init isp fsp).fspace = fsp.take (isp.getD 6 0).toNat ∧
    ((Solution.init isp fsp).fspace).length = (isp.getD 6 0).toNat ∧
    (Solution.init isp fsp).get_mesh = fsp.take ((isp.getD 0 0).toNat + 1) ∧
    ((Solution.init isp fsp).get_mesh).length
      = (isp.getD 0 0).toNat + 1 := by
  have hisp : (Solution.init isp fsp).ispace
      = isp.take (7 + (isp.getD 2 0).toNat) := by
    simp only [Solution.init, pyTake]
    rw [if_pos (by omega : (0 : Int) ≤ 7 + isp.getD 2 0)]
    congr 1
    omega
  have hfsp : (Solution.init isp fsp).fspace
      = fsp.take (isp.getD 6 0).toNat := by
    simp only [Solution.init, pyTake]
    rw [if_pos h6]
  have hmeshv : (Solution.init isp fsp).get_mesh
      = fsp.take ((isp.getD 0 0).toNat + 1) := by
    rw [Solution.get_mesh, hfsp]
    show pyTake (fsp.take (isp.getD 6 0).toNat) (isp.getD 0 0 + 1) = _
    rw [pyTake, if_pos (by omega : (0 : Int) ≤ isp.getD 0 0 + 1),
      List.take_take]
    congr 1
    omega
  refine ⟨rfl, rfl, rfl, hisp, ?_, hfsp, ?_, hmeshv, ?_⟩
  · rw [hisp, List.length_take]
    omega
  · rw [hfsp, List.length_take]
    omega
  · rw [hmeshv, List.length_take]
    omega

/-- C4 witness: a concrete workspace with `ncomp = 1`, three mesh points
and five used float entries. -/
theorem claim_C4_witness :
    (Solution.init [2, 9, 1, 1, 9, 9, 5, 42] [0, 3, 1, 7, 8]).ispace
      = [2, 9, 1, 1, 9, 9, 5, 42] ∧
    (Solution.init [2, 9, 1, 1, 9, 9, 5, 42] [0, 3, 1, 7, 8]).fspace
      = [0, 3, 1, 7, 8] ∧
    (Solution.init [2, 9, 1, 1, 9, 9, 5, 42] [0, 3, 1, 7, 8]).get_mesh
      = [0, 3, 1] ∧
    (Solution.init [2, 9, 1, 1, 9, 9, 5, 42] [0, 3, 1, 7, 8]).nmesh
      = 3 := by
  obtain ⟨-, -, hn, hi, -, hfs, -, hm, -⟩ :=
    claim_C4 [2, 9, 1, 1, 9, 9, 5, 42] [0, 3, 1, 7, 8]
      (by decide) (by decide) (by decide) (by decide) (by decide) (by decide)
  refine ⟨?_, ?_, ?_, ?_⟩
  · rw [hi]; decide
  · rw [hfs]; decide
  · rw [hm]; decide
  · rw [hn]; decide

/-- C2: the integer workspace has exactly `M * (3 + k*ncomp + mstar)`
entries and the float workspace exactly
`M * (4 + 3*mstar + (5 + k*ncomp)*(k*ncomp + mstar) + 2*mstar*2*mstar)`
entries (`nrec` fixed at 0), as a function of `(ncomp, mstar, k, M)`; the
workspaces a successful marshal hands to the kernel have exactly these
sizes, with `k` the collocation-point count (0 when unset). -/
theorem claim_C2 :
    (∀ ncomp mstar k M : Int,
      (workspaceSizes ncomp mstar k M).1 = M * (3 + (k * ncomp + mstar)) ∧
      (workspaceSizes ncomp mstar k M).2
        = M * (4 + 3 * mstar + (5 + k * ncomp) * (k * ncomp + mstar)
            + 2 * mstar * (2 * mstar))) ∧
    (∀ (inp : Inputs) (c : KernelCall), colnewMarshal inp = .ok c →
      ∃ k, resolveCollocation inp.degrees inp.collocation_points = .ok k ∧
        k = inp.collocation_points.getD 0 ∧
        (c.ispace.length : Int)
          = (workspaceSizes inp.degrees.length inp.degrees.sum k
              inp.maximum_mesh_size).1 ∧
        (c.fspace.length : Int)
          = (workspaceSizes inp.degrees.length inp.degrees.sum k
              inp.maximum_mesh_size).2) := by
  constructor
  · intro ncomp mstar k M
    constructor
    · simp [workspaceSizes]
    · simp only [workspaceSizes]
      ring
  · intro inp c h
    obtain ⟨k, left, right, g, m, hdeg, hcol, hleft, hright, hsz1, hsz2,
      hbp, htol, hg, hm, hcdeg, hcl, hcr, hcip, hclt, hct, hcis, hcfs⟩ :=
      colnewMarshal_ok h
    obtain ⟨hgl1, hgl2, hgl3, hgd⟩ := resolveGuess_ok hg
    obtain ⟨hml1, hml2, hmd⟩ := resolveMesh_ok hm
    refine ⟨k, hcol, resolveCollocation_ok hcol, ?_, ?_⟩
    · rw [hcis, hgl1, List.length_replicate]
      omega
    · rw [hcfs, hml1, hgl2, List.length_replicate]
      omega

/-- C2 witness: the minimal example problem gets a 12-entry integer and a
48-entry float workspace. -/
theorem claim_C2_witness :
    (workspaceSizes 1 1 0 3).1 = 3 * (3 + (0 * 1 + 1)) ∧
    ((cV 0).ispace.length : Int) = 12 ∧
    ((cV 0).fspace.length : Int) = 48 := by
  obtain ⟨k, hcol, hk, hi, hf⟩ := claim_C2.2 exBase (cV 0) (by decide)
  have hk0 : k = 0 := hk
  subst hk0
  refine ⟨(claim_C2.1 1 1 0 3).1, ?_, ?_⟩
  · rw [hi]; decide
  · rw [hf]; decide

/-- C5: a successful marshal implies the boundary points numbered exactly
`mstar`, were already sorted ascending, all lay inside `[left, right]`, and
were handed to the kernel exactly as given; contrapositively, an unsorted,
out-of-range or wrongly-sized sequence makes `_colnew_solve` raise before
the kernel is invoked. -/
theorem claim_C5 :
    (∀ (inp : Inputs) (c : KernelCall), colnewMarshal inp = .ok c →
      (inp.boundary_points.length : Int) = inp.degrees.sum ∧
      inp.boundary_points.Sorted (· ≤ ·) ∧
      (∀ L R, resolveLeft inp = .ok L → resolveRight inp = .ok R →
        ∀ p ∈ inp.boundary_points, L ≤ p ∧ p ≤ R) ∧
      c.zeta = inp.boundary_points) ∧
    (∀ (mstar : Int) (L R : ℚ) (bps : List ℚ),
      ((bps.length : Int) ≠ mstar →
        checkBoundaryPoints mstar L R bps
          = .error (.valueError "Invalid number of boundary points")) ∧
      ((bps.length : Int) = mstar → ¬ bps.Sorted (· ≤ ·) →
        checkBoundaryPoints mstar L R bps
          = .error (.valueError "Invalid ordering of boundary points")) ∧
      ((bps.length : Int) = mstar → bps.Sorted (· ≤ ·) →
        (∃ p ∈ bps, ¬ (L ≤ p ∧ p ≤ R)) →
        checkBoundaryPoints mstar L R bps
          = .error (.valueError "Some boundary points outside range"))) := by
  constructor
  · intro inp c h
    obtain ⟨k, left, right, g, m, hdeg, hcol, hleft, hright, hsz1, hsz2,
      hbp, htol, hg, hm, _, _, _, _, _, _, _, _⟩ := colnewMarshal_ok h
    obtain ⟨hzeta, hlen, hsorted, hrange⟩ := checkBoundaryPoints_ok hbp
    refine ⟨hlen, hsorted, ?_, hzeta⟩
    intro L R hL hR p hp
    rw [hL] at hleft
    rw [hR] at hright
    injection hleft with hLe
    injection hright with hRe
    rw [hLe, hRe]
    exact hrange p hp
  · intro mstar L R bps
    refine ⟨?_, ?_, ?_⟩
    · intro hlen
      unfold checkBoundaryPoints
      rw [if_pos hlen]
    · intro hlen hsort
      unfold checkBoundaryPoints
      rw [if_neg (by omega : ¬ (bps.length : Int) ≠ mstar)]
      have hne : sortQ bps ≠ bps := fun he =>
        hsort ((sortQ_eq_self_iff bps).mp he)
      simp only
      rw [if_pos hne]
    · intro hlen hsort hout
      unfold checkBoundaryPoints
      rw [if_neg (by omega : ¬ (bps.length : Int) ≠ mstar)]
      have heq : sortQ bps = bps := (sortQ_eq_self_iff bps).mpr hsort
      simp only
      rw [if_neg (show ¬ sortQ bps ≠ bps by rw [heq]; exact fun h => h rfl)]
      rw [if_pos ?_]
      rw [heq]
      obtain ⟨p, hp, hpo⟩ := hout
      intro hall
      refine hpo ?_
      have := List.all_eq_true.mp hall p hp
      simpa using this

/-- C5 witness: the minimal example's boundary points pass through
unchanged. -/
theorem claim_C5_witness :
    (((exBase.boundary_points.length : Int) = exBase.degrees.sum) ∧
      exBase.boundary_points.Sorted (· ≤ ·) ∧
      (cV 0).zeta = exBase.boundary_points) ∧
    checkBoundaryPoints 2 0 1 [5, 2]
      = .error (.valueError "Invalid ordering of boundary points") ∧
    checkBoundaryPoints 2 0 1 [-1, 5]
      = .error (.valueError "Some boundary points outside range") ∧
    checkBoundaryPoints 2 0 1 [0]
      = .error (.valueError "Invalid number of boundary points") := by
  refine ⟨?_, ?_, ?_, ?_⟩
  · obtain ⟨h1, h2, h3, h4⟩ := claim_C5.1 exBase (cV 0) (by decide)
    exact ⟨h1, h2, h4⟩
  · exact (claim_C5.2 2 0 1 [5, 2]).2.1 (by decide)
      (by with_unfolding_all decide)
  · exact (claim_C5.2 2 0 1 [-1, 5]).2.2 (by decide)
      (by with_unfolding_all decide)
      ⟨-1, by with_unfolding_all decide, by with_unfolding_all decide⟩
  · exact (claim_C5.2 2 0 1 [0]).1 (by decide)

/-- C6 counterexample: for the tolerance sequence `[-1]` the code retains
nothing (it keeps only entries `> 0`), while the claim's "entries whose
value is not 0" would retain the `-1` with index 1. -/
theorem claim_C6_cex :
    activeTolerances [(-1 : ℚ)] = ([], []) ∧
    activeTolerancesClaim [(-1 : ℚ)] = ([-1], [1]) ∧
    activeTolerances [(-1 : ℚ)] ≠ activeTolerancesClaim [(-1 : ℚ)] := by
  with_unfolding_all decide

/-- C6 (amended): the active-tolerance list handed to the kernel contains
exactly the entries whose value is strictly greater than 0 (nonpositive
entries, including 0, are dropped), paired with a strictly increasing
1-based index list identifying which unknowns they control, and the
configuration vector's `ipar[3]` equals the number of retained entries. -/
theorem claim_C6 :
    (∀ ts : List ℚ,
      (activeTolerances ts).1 = ts.filter (fun t => decide (0 < t)) ∧
      (activeTolerances ts).2.length = (activeTolerances ts).1.length ∧
      List.Pairwise (· < ·) (activeTolerances ts).2 ∧
      ∀ pr ∈ (activeTolerances ts).2.zip (activeTolerances ts).1,
        1 ≤ pr.1 ∧ pr.1 ≤ (ts.length : Int) ∧
          ts.getD (pr.1 - 1).toNat 0 = pr.2 ∧ 0 < pr.2) ∧
    (∀ (inp : Inputs) (c : KernelCall), colnewMarshal inp = .ok c →
      c.tol = (activeTolerances (inp.tolerances.getD
        (List.replicate inp.degrees.sum.toNat 0))).1 ∧
      c.ltol = (activeTolerances (inp.tolerances.getD
        (List.replicate inp.degrees.sum.toNat 0))).2 ∧
      c.ipar.getD 3 0 = c.ltol.length) := by
  constructor
  · intro ts
    refine ⟨?_, ?_, ?_, ?_⟩
    · simpa [activeTolerances] using
        enumFrom_filter_map_snd (fun t => decide ((0 : ℚ) < t)) ts 0
    · simp [activeTolerances]
    · have hpw : ((ts.enumFrom 0).filter
          (fun p => decide ((0 : ℚ) < p.2))).Pairwise
          (fun p q => p.1 < q.1) :=
        List.Pairwise.filter _ (pairwise_fst_enumFrom ts 0)
      simp only [activeTolerances, List.enum]
      exact hpw.map _ (fun a b hab => by omega)
    · intro pr hpr
      simp only [activeTolerances, List.enum] at hpr
      rw [List.zip_map'] at hpr
      obtain ⟨p, hp, hpe⟩ := List.mem_map.mp hpr
      obtain ⟨hpmem, hppos⟩ := List.mem_filter.mp hp
      obtain ⟨hge, hlt, hgd⟩ := mem_enumFrom_facts ts 0 p hpmem
      subst hpe
      simp only at hlt hgd ⊢
      rw [Nat.sub_zero] at hlt hgd
      refine ⟨by omega, by omega, ?_, of_decide_eq_true hppos⟩
      have : ((p.1 : Int) + 1 - 1).toNat = p.1 := by omega
      rw [this, hgd]
  · intro inp c h
    obtain ⟨k, left, right, g, m, hdeg, hcol, hleft, hright, hsz1, hsz2,
      hbp, htol, hg, hm, hcdeg, hcl, hcr, hcip, hclt, hct, hcis, hcfs⟩ :=
      colnewMarshal_ok h
    obtain ⟨hgl1, hgl2, hgl3, hgd⟩ := resolveGuess_ok hg
    obtain ⟨hml1, hml2, hmd⟩ := resolveMesh_ok hm
    refine ⟨hct, hclt, ?_⟩
    rw [hcip, hmd 3 (by omega) (by omega), hgd 3 (by omega) (by omega),
      hclt]
    simp [buildIpar, List.getD]

/-- C6 witness: for tolerances `[3, 0]` only the first entry is retained,
with index 1, and `ipar[3]` reports one active tolerance. -/
theorem claim_C6_witness :
    (activeTolerances [(3 : ℚ), 0]).1 = [3] ∧
    cC6.ipar.getD 3 0 = cC6.ltol.length := by
  constructor
  · rw [(claim_C6.1 [(3 : ℚ), 0]).1]
    decide
  · have h := (claim_C6.2 exC6 cC6 (by decide)).2.2
    exact h

/-- C7: with adaptive mesh selection disabled, any call without concrete
mesh point locations (`initial_mesh` absent, or merely an integer point
count) fails validation before the kernel is invoked; with concrete
locations the non-adaptive run is accepted and gets the fixed-mesh flag
`ipar[7] = 2`. -/
theorem claim_C7 (inp : Inputs)
    (hna : inp.adaptive_mesh_selection = false) :
    (inp.initial_mesh.isPoints = false →
      ∀ c : KernelCall, colnewMarshal inp ≠ .ok c) ∧
    (∀ c : KernelCall, colnewMarshal inp = .ok c →
      inp.initial_mesh.isPoints = true ∧ c.ipar.getD 7 0 = 2) ∧
    (∀ (mesh : InitialMesh) (fspace : List ℚ) (ipar : List Int),
      mesh.isPoints = false →
      resolveMesh mesh false fspace ipar = .error (.valueError
        "Cannot disable mesh selection when no initial_mesh given")) := by
  have main : ∀ c : KernelCall, colnewMarshal inp = .ok c →
      inp.initial_mesh.isPoints = true ∧ c.ipar.getD 7 0 = 2 := by
    intro c hok
    obtain ⟨k, left, right, g, m, hdeg, hcol, hleft, hright, hsz1, hsz2,
      hbp, htol, hg, hm, hcdeg, hcl, hcr, hcip, hclt, hct, hcis, hcfs⟩ :=
      colnewMarshal_ok hok
    obtain ⟨hgl1, hgl2, hgl3, hgd⟩ := resolveGuess_ok hg
    rw [hna] at hm
    cases hmesh : inp.initial_mesh with
    | noMesh =>
      rw [hmesh] at hm
      simp [resolveMesh] at hm
    | count n =>
      rw [hmesh] at hm
      simp [resolveMesh] at hm
    | points xs =>
      rw [hmesh] at hm
      simp only [resolveMesh] at hm
      split at hm
      · exact Except.noConfusion hm
      rename_i fsp1 hfsp
      injection hm with hm
      refine ⟨rfl, ?_⟩
      have hlen : 7 < (g.2.2.set 2 ((xs.length : Int) - 1)).length := by
        rw [List.length_set, hgl3]
        simp [buildIpar]
      rw [hcip, ← hm]
      simp only [Bool.false_eq_true, if_false]
      exact getD_set_self hlen
  refine ⟨?_, main, ?_⟩
  · intro hp c hok
    exact absurd (main c hok).1 (by rw [hp]; exact Bool.false_ne_true)
  · intro mesh fspace ipar hp
    cases mesh with
    | noMesh => rfl
    | count n => rfl
    | points xs => exact Bool.noConfusion hp

/-- C7 witness: the non-adaptive run with mesh `[0, 1]` is accepted with
`ipar[7] = 2`; without a concrete mesh the same call is rejected. -/
theorem claim_C7_witness :
    (exC7ok.initial_mesh.isPoints = true ∧ (c7Call).ipar.getD 7 0 = 2) ∧
    colnewMarshal exC7bad ≠ .ok c7Call ∧
    resolveMesh .noMesh false [] [] = .error (.valueError
      "Cannot disable mesh selection when no initial_mesh given") := by
  refine ⟨?_, ?_, ?_⟩
  · exact (claim_C7 exC7ok rfl).2.1 c7Call (by decide)
  · exact (claim_C7 exC7bad rfl).1 rfl c7Call
  · exact (claim_C7 exC7bad rfl).2.2 .noMesh [] [] rfl

/-- C8: continuing from a prior `Solution` onto an explicit mesh is
rejected before the kernel runs when coarsening is also requested;
otherwise the marshaled float workspace holds the new mesh first with the
prior solution's data appended directly after it, the initial-guess flag is
the continue-onto-fixed-mesh mode `ipar[8] = 4`, and the initial
subinterval count is `ipar[2] = len(initial_mesh) - 1`. -/
theorem claim_C8 (inp : Inputs) (s : Solution) (xs : List ℚ)
    (hguess : inp.initial_guess = .solution s)
    (hmesh : inp.initial_mesh = .points xs) :
    (inp.coarsen_initial_guess_mesh = true →
      ∀ c : KernelCall, colnewMarshal inp ≠ .ok c) ∧
    (∀ (ispace : List Int) (fspace : List ℚ) (ipar : List Int),
      resolveGuess (.solution s) (.points xs) true ispace fspace ipar
        = .error (.valueError
          "Initial mesh and guess both specified: cannot coarsen")) ∧
    (∀ c : KernelCall, colnewMarshal inp = .ok c →
      c.ipar.getD 8 0 = 4 ∧
      c.ipar.getD 2 0 = (xs.length : Int) - 1 ∧
      c.fspace.take (xs.length + s.fspace.length) = xs ++ s.fspace) := by
  refine ⟨?_, fun ispace fspace ipar => rfl, ?_⟩
  · intro hco c hok
    obtain ⟨k, left, right, g, m, hdeg, hcol, hleft, hright, hsz1, hsz2,
      hbp, htol, hg, hm, _, _, _, _, _, _, _, _⟩ := colnewMarshal_ok hok
    rw [hguess, hmesh, hco] at hg
    simp [resolveGuess] at hg
  · intro c hok
    obtain ⟨k, left, right, g, m, hdeg, hcol, hleft, hright, hsz1, hsz2,
      hbp, htol, hg, hm, hcdeg, hcl, hcr, hcip, hclt, hct, hcis, hcfs⟩ :=
      colnewMarshal_ok hok
    rw [hguess, hmesh] at hg
    rw [hmesh] at hm
    simp only [resolveGuess] at hg
    split at hg
    · exact Except.noConfusion hg
    rename_i hco
    split at hg
    · exact Except.noConfusion hg
    rename_i isp1 hisp
    split at hg
    · exact Except.noConfusion hg
    rename_i fsp1 hfsp
    injection hg with hg
    simp only [resolveMesh] at hm
    split at hm
    · exact Except.noConfusion hm
    rename_i fsp2 hfsp2
    injection hm with hm
    have hglen : g.2.2.length = 11 := by
      rw [← hg]
      simp [buildIpar]
    refine ⟨?_, ?_, ?_⟩
    · rw [hcip, ← hm]
      rw [getD_set_ne (by omega), getD_set_ne (by omega), ← hg]
      simp only
      rw [getD_set_ne (by omega)]
      exact getD_set_self (by simp [buildIpar])
    · rw [hcip, ← hm]
      rw [getD_set_ne (by omega)]
      exact getD_set_self (by rw [hglen]; omega)
    · rw [hcfs, ← hm]
      obtain ⟨hb2, he2⟩ := pySetSlice_ok hfsp2
      rw [← hg] at he2 hb2
      simp only at he2 hb2
      obtain ⟨hb1, he1⟩ := pySetSlice_ok hfsp
      rw [List.length_replicate] at hb1
      have hAlen : ((List.replicate
          (workspaceSizes (inp.degrees.length : Int) inp.degrees.sum k
            inp.maximum_mesh_size).2.toNat (0 : ℚ)).take xs.length).length
          = xs.length := by
        rw [List.length_take, List.length_replicate]
        omega
      show fsp2.take (xs.length + s.fspace.length) = xs ++ s.fspace
      rw [he2, List.take_zero, List.nil_append, Nat.zero_add, he1,
        List.append_assoc, List.drop_left' hAlen, ← List.append_assoc]
      exact List.take_left' (by rw [List.length_append])

/-- C8 witness: continuing `exSol` onto mesh `[0, 1]` puts the mesh at the
head of the float workspace with the solution data right after it, sets
`ipar[8] = 4` and `ipar[2] = 1`; requesting coarsening as well is
rejected. -/
theorem claim_C8_witness :
    (c8Call.ipar.getD 8 0 = 4 ∧
      c8Call.ipar.getD 2 0 = ((2 : Nat) : Int) - 1 ∧
      c8Call.fspace.take (2 + 3) = [0, 1] ++ exSol.fspace) ∧
    colnewMarshal exC8c ≠ .ok c8Call ∧
    resolveGuess (.solution exSol) (.points [0, 1]) true [] [] []
      = .error (.valueError
        "Initial mesh and guess both specified: cannot coarsen") := by
  refine ⟨?_, ?_, ?_⟩
  · exact (claim_C8 exC8 exSol [0, 1] rfl rfl).2.2 c8Call (by decide)
  · exact (claim_C8 exC8c exSol [0, 1] rfl rfl).1 rfl c8Call
  · exact (claim_C8 exC8c exSol [0, 1] rfl rfl).2.1 [] [] []

/-- C9: on boundary points `[0, 0, 1]` (conditions 0 and 1 share location
0; condition 2 sits at location 1) the boundary-locality check builds the
expanded finite-difference Jacobian over one z-vector copy per distinct
location — two copies, not three — and maps the user's `dgsub` so that
row `i` occupies only its own location's columns: the local `gsubGood`
with its exact Jacobian passes, while `gsubBad`, whose condition 2 draws
its reported sensitivity from the other distinct location, raises
`ValueError`. -/
theorem claim_C9 :
    check_jacobians_boundary [0, 0, 1] [1, 1, 1] gsubGood dgsubId
      = .ok () ∧
    check_jacobians_boundary [0, 0, 1] [1, 1, 1] gsubBad dgsubId
      = .error (.valueError "dgsub may be invalid") ∧
    distinctLocations [0, 0, 1] = [0, 1] ∧
    indepMap [0, 0, 1] = [0, 0, 1] := by
  with_unfolding_all decide

/-- C10: `ipar[6]` always receives 1 minus the clamped verbosity (below 0
treated as 0, above 2 as 2), and no verbosity value is ever rejected: on
the example problem the marshal succeeds for every integer verbosity. -/
theorem claim_C10 :
    (∀ (inp : Inputs) (c : KernelCall), colnewMarshal inp = .ok c →
      c.ipar.getD 6 0 = 1 - max 0 (min 2 inp.verbosity)) ∧
    (∀ v : Int, colnewMarshal (exV v) = .ok (cV v)) := by
  constructor
  · intro inp c h
    obtain ⟨k, left, right, g, m, hdeg, hcol, hleft, hright, hsz1, hsz2,
      hbp, htol, hg, hm, hcdeg, hcl, hcr, hcip, hclt, hct, hcis, hcfs⟩ :=
      colnewMarshal_ok h
    obtain ⟨hgl1, hgl2, hgl3, hgd⟩ := resolveGuess_ok hg
    obtain ⟨hml1, hml2, hmd⟩ := resolveMesh_ok hm
    rw [hcip, hmd 6 (by omega) (by omega), hgd 6 (by omega) (by omega)]
    rw [← clampVerbosity_eq]
    simp [buildIpar, List.getD]
  · intro v
    with_unfolding_all rfl

/-- C10 witness: at verbosity 7 the marshal still succeeds and the kernel's
output-control entry is `1 - 2 = -1`. -/
theorem claim_C10_witness :
    (cV 7).ipar.getD 6 0 = 1 - max 0 (min 2 (7 : Int)) :=
  claim_C10.1 (exV 7) (cV 7) (claim_C10.2 7)

end Bvp1lg
